import Mathlib

/-!
Verification of the snake-game engine of `Snake_Game_Project.py`.

The simulation state machine is embedded shallowly: every operation of the
source (`start_game`, `game_loop`, `check_collision`, `spawn_food`,
`add_obstacles_for_level`, the movement-key handler and the pause key) becomes
a pure Lean function on an explicit `GameState`.  The source draws random grid
cells by rejection sampling (`random.randint(...) * CELL_SIZE` until the cell
is free); here the stream of sampled cells is an explicit `List Pos` argument,
and an operation that would loop forever for lack of a free cell returns
`none`.  Pixel coordinates are `Int` pairs, exactly as the source manipulates
them (multiples of `CELL_SIZE`; they can go negative at the left/top wall).
-/

/-- WIDTH constant of the source (pixels). -/
def WIDTH : Int := 800

/-- HEIGHT constant of the source (pixels). -/
def HEIGHT : Int := 600

/-- CELL_SIZE constant of the source (pixels per grid cell). -/
def CELL_SIZE : Int := 20

/-- INITIAL_SPEED constant of the source (milliseconds per tick). -/
def INITIAL_SPEED : Nat := 140

/-- SPEED_INCREMENT constant of the source. -/
def SPEED_INCREMENT : Nat := 3

/-- MIN_SPEED constant of the source. -/
def MIN_SPEED : Nat := 40

/-- LEVEL_SCORE_STEP constant of the source. -/
def LEVEL_SCORE_STEP : Nat := 5

/-- A board position in pixel coordinates, as the source stores it. -/
abbrev Pos := Int × Int

/-- The four movement directions of the source (the strings
`"Up"/"Down"/"Left"/"Right"`). -/
inductive Direction where
  | Up
  | Down
  | Left
  | Right
deriving DecidableEq, Repr

/-- The 180-degree reverse of a direction. -/
def Direction.opposite : Direction → Direction
  | .Up => .Down
  | .Down => .Up
  | .Left => .Right
  | .Right => .Left

/-- The phases of the session state machine.  In the source, `Running` is
`game_running ∧ ¬paused`, `Paused` is `game_running ∧ paused`, `GameOver` is
the state set by `game_over()`, and `Menu` is the idle state of the menu
screen. -/
inductive Phase where
  | Menu
  | Running
  | Paused
  | GameOver
deriving DecidableEq, Repr

/-- The mutable session state owned by the engine: the fields
`self.snake`, `self.direction`, `self.next_direction`, `self.food`,
`self.obstacles`, `self.score`, `self.level`, `self.current_speed`,
`self.high_score` of the source, plus the phase.  `food` is an `Option`
because `getattr(self, "food", None)` yields `None` before the first
`spawn_food` of the very first session. -/
structure GameState where
  phase : Phase
  snake : List Pos
  direction : Direction
  next_direction : Direction
  food : Option Pos
  obstacles : List Pos
  score : Nat
  level : Nat
  current_speed : Nat
  high_score : Nat
deriving DecidableEq, Repr

/-- One step of the head in a direction (the if-chain on
`head_x, head_y` in `game_loop`). -/
def movePos : Pos → Direction → Pos
  | (x, y), .Up => (x, y - CELL_SIZE)
  | (x, y), .Down => (x, y + CELL_SIZE)
  | (x, y), .Left => (x - CELL_SIZE, y)
  | (x, y), .Right => (x + CELL_SIZE, y)

/-- The new head a tick computes: `self.snake[0]` moved one cell in the
direction just committed from `self.next_direction`. -/
def new_head (s : GameState) : Pos :=
  movePos (s.snake.headD (0, 0)) s.next_direction

/-- The wall test of `check_collision`:
`x < 0 or x >= WIDTH or y < 0 or y >= HEIGHT`. -/
def wall_hit (head : Pos) : Bool :=
  head.1 < 0 || WIDTH ≤ head.1 || head.2 < 0 || HEIGHT ≤ head.2

/-- Embedding of `check_collision(self, head)`: wall test first, then the
whole snake body (tail included), then the obstacle list. -/
def check_collision (snake obstacles : List Pos) (head : Pos) : Bool :=
  if wall_hit head then true
  else if head ∈ snake then true
  else if head ∈ obstacles then true
  else false

/-- Which test of `check_collision` fires first, following the textual order
of the source: wall, then self, then obstacles. -/
inductive CollisionKind where
  | wall
  | selfHit
  | obstacleHit
deriving DecidableEq, Repr

/-- The first test of `check_collision` that matches, in the source's order
(wall, self, obstacles); `none` when no test matches. -/
def collision_reason (snake obstacles : List Pos) (head : Pos) :
    Option CollisionKind :=
  if wall_hit head then some .wall
  else if head ∈ snake then some .selfHit
  else if head ∈ obstacles then some .obstacleHit
  else none

/-- Modelled from the claim's words, for comparison with `collision_reason`:
the first matching test when the order is wall, then obstacles, then self. -/
def collision_reason_claim (snake obstacles : List Pos) (head : Pos) :
    Option CollisionKind :=
  if wall_hit head then some .wall
  else if head ∈ obstacles then some .obstacleHit
  else if head ∈ snake then some .selfHit
  else none

/-- Embedding of `spawn_food`: rejection-sample cells from the stream until
one is in neither the snake nor the obstacle list; return it with the unused
rest of the stream, or `none` when the stream runs out. -/
def spawn_food (snake obstacles : List Pos) :
    List Pos → Option (Pos × List Pos)
  | [] => none
  | c :: rest =>
    if c ∉ snake ∧ c ∉ obstacles then some (c, rest)
    else spawn_food snake obstacles rest

/-- Embedding of `add_obstacles_for_level`: append sampled cells to
`obstacles` — skipping cells in the snake, equal to the current food, or
already present — until the list has `target` elements
(`target_count = self.level * 2` at the call sites). -/
def add_obstacles_for_level (snake : List Pos) (food : Option Pos)
    (target : Nat) :
    List Pos → List Pos → Option (List Pos × List Pos)
  | obstacles, [] =>
    if target ≤ obstacles.length then some (obstacles, []) else none
  | obstacles, c :: rest =>
    if target ≤ obstacles.length then some (obstacles, c :: rest)
    else if c ∈ snake ∨ some c = food then
      add_obstacles_for_level snake food target obstacles rest
    else if c ∈ obstacles then
      add_obstacles_for_level snake food target obstacles rest
    else
      add_obstacles_for_level snake food target (obstacles ++ [c]) rest

/-- Embedding of `game_loop`, as one pure tick (`advance_tick` of the spec):
no-op unless running; commit the buffered direction; compute the new head;
on collision transition to `GameOver`; otherwise insert the head, handle
food/level/high-score/speed or pop the tail. -/
def game_loop (s : GameState) (rng : List Pos) :
    Option (GameState × List Pos) :=
  if s.phase = Phase.Menu ∨ s.phase = Phase.GameOver then some (s, rng)
  else if s.phase = Phase.Paused then some (s, rng)
  else
    let dir := s.next_direction
    let newHead := new_head s
    if check_collision s.snake s.obstacles newHead then
      some ({ s with direction := dir, phase := Phase.GameOver }, rng)
    else
      let snake1 := newHead :: s.snake
      if some newHead = s.food then
        let score1 := s.score + 1
        let newLevel := 1 + score1 / LEVEL_SCORE_STEP
        let level1 := if s.level < newLevel then newLevel else s.level
        let obsRes :=
          if s.level < newLevel then
            add_obstacles_for_level snake1 s.food (level1 * 2) s.obstacles rng
          else some (s.obstacles, rng)
        match obsRes with
        | none => none
        | some (obstacles1, rng1) =>
          let high1 := if s.high_score < score1 then score1 else s.high_score
          match spawn_food snake1 obstacles1 rng1 with
          | none => none
          | some (food1, rng2) =>
            some ({ s with
                      direction := dir,
                      snake := snake1,
                      score := score1,
                      level := level1,
                      obstacles := obstacles1,
                      high_score := high1,
                      food := some food1,
                      current_speed :=
                        max MIN_SPEED (s.current_speed - SPEED_INCREMENT) },
                  rng2)
      else
        some ({ s with direction := dir, snake := snake1.dropLast }, rng)

/-- The initial snake of `start_game`: three cells, head at
`(WIDTH // 2, HEIGHT // 2)`, extending one and two cells to the left. -/
def initial_snake : List Pos :=
  [(WIDTH / 2, HEIGHT / 2),
   (WIDTH / 2 - CELL_SIZE, HEIGHT / 2),
   (WIDTH / 2 - 2 * CELL_SIZE, HEIGHT / 2)]

/-- Embedding of `start_game` (`start_session` of the spec): reset score,
level and speed, place the initial snake facing `Right`, clear and respawn
obstacles for level 1, then spawn food.  `oldFood` is
`getattr(self, "food", None)` as seen by the obstacle spawner: `none` on the
very first start, the previous session's food on a restart.  `hs` is the
surviving high score. -/
def start_game (hs : Nat) (oldFood : Option Pos) (rng : List Pos) :
    Option (GameState × List Pos) :=
  match add_obstacles_for_level initial_snake oldFood (1 * 2) [] rng with
  | none => none
  | some (obstacles0, rng1) =>
    match spawn_food initial_snake obstacles0 rng1 with
    | none => none
    | some (food0, rng2) =>
      some ({ phase := Phase.Running,
              snake := initial_snake,
              direction := Direction.Right,
              next_direction := Direction.Right,
              food := some food0,
              obstacles := obstacles0,
              score := 0,
              level := 1,
              current_speed := INITIAL_SPEED,
              high_score := hs }, rng2)

/-- The movement-key part of `on_key_press` (`set_intent` of the spec):
ignored unless running and unpaused; each arrow key buffers itself into
`next_direction` unless the committed direction is its reverse. -/
def set_intent (s : GameState) (d : Direction) : GameState :=
  if s.phase ≠ Phase.Running then s
  else
    match d with
    | .Up => if s.direction ≠ .Down then { s with next_direction := .Up } else s
    | .Down => if s.direction ≠ .Up then { s with next_direction := .Down } else s
    | .Left => if s.direction ≠ .Right then { s with next_direction := .Left } else s
    | .Right => if s.direction ≠ .Left then { s with next_direction := .Right } else s

/-- The pause-key path of `on_key_press` (`toggle_pause` of the spec): only
when `game_running` (phase `Running` or `Paused`) does `toggle_pause()` flip
the paused flag; in `Menu` and `GameOver` the key does nothing. -/
def toggle_pause (s : GameState) : GameState :=
  match s.phase with
  | Phase.Running => { s with phase := Phase.Paused }
  | Phase.Paused => { s with phase := Phase.Running }
  | _ => s

/-- Iterate `game_loop` a given number of ticks, threading the sample
stream. -/
def run_ticks (s : GameState) (rng : List Pos) :
    Nat → Option (GameState × List Pos)
  | 0 => some (s, rng)
  | n + 1 =>
    match game_loop s rng with
    | none => none
    | some (s1, rng1) => run_ticks s1 rng1 n

/-! ### Helper lemmas about the spawning loops -/

theorem spawn_food_spec (snake obstacles : List Pos) :
    ∀ rng f rng', spawn_food snake obstacles rng = some (f, rng') →
      f ∉ snake ∧ f ∉ obstacles := by
  intro rng
  induction rng with
  | nil => intro f rng' h; simp [spawn_food] at h
  | cons c rest ih =>
    intro f rng' h
    by_cases hc : c ∉ snake ∧ c ∉ obstacles
    · rw [spawn_food, if_pos hc] at h
      cases h
      exact hc
    · rw [spawn_food, if_neg hc] at h
      exact ih f rng' h

theorem add_obstacles_subset (snake : List Pos) (food : Option Pos)
    (target : Nat) :
    ∀ rng obstacles obstacles' rng',
      add_obstacles_for_level snake food target obstacles rng
        = some (obstacles', rng') →
      obstacles ⊆ obstacles' := by
  intro rng
  induction rng with
  | nil =>
    intro obstacles obstacles' rng' h
    rw [add_obstacles_for_level] at h
    split at h
    · cases h; exact List.Subset.refl _
    · cases h
  | cons c rest ih =>
    intro obstacles obstacles' rng' h
    rw [add_obstacles_for_level] at h
    split at h
    · cases h; exact List.Subset.refl _
    · split at h
      · exact ih obstacles obstacles' rng' h
      · split at h
        · exact ih obstacles obstacles' rng' h
        · exact fun x hx =>
            ih (obstacles ++ [c]) obstacles' rng' h
              (List.mem_append_left _ hx)

theorem add_obstacles_length (snake : List Pos) (food : Option Pos)
    (target : Nat) :
    ∀ rng obstacles obstacles' rng',
      obstacles.length ≤ target →
      add_obstacles_for_level snake food target obstacles rng
        = some (obstacles', rng') →
      obstacles'.length = target := by
  intro rng
  induction rng with
  | nil =>
    intro obstacles obstacles' rng' hle h
    rw [add_obstacles_for_level] at h
    split at h
    · cases h; omega
    · cases h
  | cons c rest ih =>
    intro obstacles obstacles' rng' hle h
    rw [add_obstacles_for_level] at h
    split at h
    next hge =>
      cases h; omega
    next hlt =>
      split at h
      · exact ih obstacles obstacles' rng' hle h
      · split at h
        · exact ih obstacles obstacles' rng' hle h
        · refine ih (obstacles ++ [c]) obstacles' rng' ?_ h
          simp only [List.length_append, List.length_singleton]
          omega

theorem add_obstacles_mem (snake : List Pos) (food : Option Pos)
    (target : Nat) :
    ∀ rng obstacles obstacles' rng',
      add_obstacles_for_level snake food target obstacles rng
        = some (obstacles', rng') →
      ∀ p ∈ obstacles', p ∈ obstacles ∨ (p ∉ snake ∧ some p ≠ food) := by
  intro rng
  induction rng with
  | nil =>
    intro obstacles obstacles' rng' h p hp
    rw [add_obstacles_for_level] at h
    split at h
    · cases h; exact Or.inl hp
    · cases h
  | cons c rest ih =>
    intro obstacles obstacles' rng' h p hp
    rw [add_obstacles_for_level] at h
    split at h
    · cases h; exact Or.inl hp
    · split at h
      · exact ih obstacles obstacles' rng' h p hp
      · split at h
        · exact ih obstacles obstacles' rng' h p hp
        next hskip hmem =>
          rcases ih (obstacles ++ [c]) obstacles' rng' h p hp with hin | hnew
          · rcases List.mem_append.mp hin with hin | hin
            · exact Or.inl hin
            · simp only [List.mem_singleton] at hin
              subst hin
              push_neg at hskip
              exact Or.inr hskip
          · exact Or.inr hnew

theorem add_obstacles_nodup (snake : List Pos) (food : Option Pos)
    (target : Nat) :
    ∀ rng obstacles obstacles' rng',
      obstacles.Nodup →
      add_obstacles_for_level snake food target obstacles rng
        = some (obstacles', rng') →
      obstacles'.Nodup := by
  intro rng
  induction rng with
  | nil =>
    intro obstacles obstacles' rng' hnd h
    rw [add_obstacles_for_level] at h
    split at h
    · cases h; exact hnd
    · cases h
  | cons c rest ih =>
    intro obstacles obstacles' rng' hnd h
    rw [add_obstacles_for_level] at h
    split at h
    · cases h; exact hnd
    · split at h
      · exact ih obstacles obstacles' rng' hnd h
      · split at h
        · exact ih obstacles obstacles' rng' hnd h
        next hskip hmem =>
          refine ih (obstacles ++ [c]) obstacles' rng' ?_ h
          simpa [List.nodup_append] using ⟨hnd, fun hc => hmem hc⟩

theorem game_loop_cases (s : GameState) (rng : List Pos)
    (s' : GameState) (rng' : List Pos)
    (h : game_loop s rng = some (s', rng')) :
    (s.phase ≠ Phase.Running ∧ s' = s ∧ rng' = rng)
    ∨ (s.phase = Phase.Running
        ∧ check_collision s.snake s.obstacles (new_head s) = true
        ∧ s' = { s with direction := s.next_direction, phase := Phase.GameOver }
        ∧ rng' = rng)
    ∨ (s.phase = Phase.Running
        ∧ check_collision s.snake s.obstacles (new_head s) = false
        ∧ some (new_head s) ≠ s.food
        ∧ s' = { s with
            direction := s.next_direction,
            snake := (new_head s :: s.snake).dropLast }
        ∧ rng' = rng)
    ∨ (s.phase = Phase.Running
        ∧ check_collision s.snake s.obstacles (new_head s) = false
        ∧ some (new_head s) = s.food
        ∧ ∃ obstacles1 rng1 food1,
            (if s.level < 1 + (s.score + 1) / LEVEL_SCORE_STEP then
              add_obstacles_for_level (new_head s :: s.snake) s.food
                ((1 + (s.score + 1) / LEVEL_SCORE_STEP) * 2) s.obstacles rng
             else some (s.obstacles, rng)) = some (obstacles1, rng1)
            ∧ spawn_food (new_head s :: s.snake) obstacles1 rng1
                = some (food1, rng')
            ∧ s' = { s with
                direction := s.next_direction,
                snake := new_head s :: s.snake,
                score := s.score + 1,
                level := if s.level < 1 + (s.score + 1) / LEVEL_SCORE_STEP
                  then 1 + (s.score + 1) / LEVEL_SCORE_STEP else s.level,
                obstacles := obstacles1,
                high_score := if s.high_score < s.score + 1
                  then s.score + 1 else s.high_score,
                food := some food1,
                current_speed :=
                  max MIN_SPEED (s.current_speed - SPEED_INCREMENT) }) := by
  by_cases hph : s.phase = Phase.Running
  · rw [game_loop] at h
    rw [if_neg (by simp [hph]), if_neg (by simp [hph])] at h
    dsimp only at h
    by_cases hcol : check_collision s.snake s.obstacles (new_head s) = true
    · rw [if_pos hcol] at h
      cases h
      exact Or.inr (Or.inl ⟨hph, hcol, rfl, rfl⟩)
    · rw [Bool.not_eq_true] at hcol
      rw [hcol] at h
      simp only [Bool.false_eq_true, if_false] at h
      by_cases hfood : some (new_head s) = s.food
      · rw [if_pos hfood] at h
        refine Or.inr (Or.inr (Or.inr ⟨hph, hcol, hfood, ?_⟩))
        by_cases hlev : s.level < 1 + (s.score + 1) / LEVEL_SCORE_STEP
        · simp only [if_pos hlev] at h ⊢
          cases hobs : add_obstacles_for_level (new_head s :: s.snake) s.food
              ((1 + (s.score + 1) / LEVEL_SCORE_STEP) * 2) s.obstacles rng with
          | none => rw [hobs] at h; dsimp only at h; cases h
          | some pr =>
            obtain ⟨obstacles1, rng1⟩ := pr
            rw [hobs] at h
            dsimp only at h
            cases hsf : spawn_food (new_head s :: s.snake) obstacles1 rng1 with
            | none => rw [hsf] at h; cases h
            | some pr2 =>
              obtain ⟨food1, rng2⟩ := pr2
              rw [hsf] at h
              cases h
              exact ⟨obstacles1, rng1, food1, rfl, hsf, rfl⟩
        · simp only [if_neg hlev] at h ⊢
          cases hsf : spawn_food (new_head s :: s.snake) s.obstacles rng with
          | none => rw [hsf] at h; cases h
          | some pr2 =>
            obtain ⟨food1, rng2⟩ := pr2
            rw [hsf] at h
            cases h
            exact ⟨s.obstacles, rng, food1, rfl, hsf, rfl⟩
      · rw [if_neg hfood] at h
        cases h
        exact Or.inr (Or.inr (Or.inl ⟨hph, hcol, hfood, rfl, rfl⟩))
  · left
    refine ⟨hph, ?_⟩
    rw [game_loop] at h
    cases hp : s.phase <;> rw [hp] at h <;> simp_all

theorem game_loop_not_running (s : GameState) (rng : List Pos)
    (h : s.phase ≠ Phase.Running) :
    game_loop s rng = some (s, rng) := by
  rw [game_loop]
  cases hp : s.phase <;> simp_all

theorem game_loop_score_le (s : GameState) (rng : List Pos)
    (s' : GameState) (rng' : List Pos)
    (h : game_loop s rng = some (s', rng')) :
    s.score ≤ s'.score := by
  rcases game_loop_cases s rng s' rng' h with
    ⟨_, rfl, _⟩ | ⟨_, _, rfl, _⟩ | ⟨_, _, _, rfl, _⟩
      | ⟨_, _, _, _, _, _, _, _, rfl⟩ <;> simp

theorem game_loop_gameOver_phase (s : GameState) (rng : List Pos)
    (s' : GameState) (rng' : List Pos)
    (h : game_loop s rng = some (s', rng'))
    (hph : s'.phase = Phase.Running) :
    s.phase = Phase.Running := by
  rcases game_loop_cases s rng s' rng' h with
    ⟨_, rfl, _⟩ | ⟨hr, _, rfl, _⟩ | ⟨hr, _, _, rfl, _⟩
      | ⟨hr, _, _, _, _, _, _, _, rfl⟩
  · exact hph
  · exact hr
  · exact hr
  · exact hr

theorem run_ticks_score_le (n : Nat) :
    ∀ s rng s' rng', run_ticks s rng n = some (s', rng') →
      s.score ≤ s'.score := by
  induction n with
  | zero =>
    intro s rng s' rng' h
    rw [run_ticks] at h
    cases h
    exact Nat.le_refl _
  | succ n ih =>
    intro s rng s' rng' h
    rw [run_ticks] at h
    cases hstep : game_loop s rng with
    | none => rw [hstep] at h; cases h
    | some pr =>
      obtain ⟨s1, rng1⟩ := pr
      rw [hstep] at h
      exact Nat.le_trans (game_loop_score_le s rng s1 rng1 hstep)
        (ih s1 rng1 s' rng' h)

theorem run_ticks_not_running (n : Nat) :
    ∀ s rng s' rng', s.phase ≠ Phase.Running →
      run_ticks s rng n = some (s', rng') → s' = s ∧ rng' = rng := by
  induction n with
  | zero =>
    intro s rng s' rng' _ h
    rw [run_ticks] at h
    cases h
    exact ⟨rfl, rfl⟩
  | succ n ih =>
    intro s rng s' rng' hns h
    rw [run_ticks, game_loop_not_running s rng hns] at h
    exact ih s rng s' rng' hns h

theorem run_ticks_running (n : Nat) (s : GameState) (rng : List Pos)
    (s' : GameState) (rng' : List Pos) (s1 : GameState) (rng1 : List Pos)
    (h : run_ticks s rng (n + 1) = some (s', rng'))
    (hrun : s'.phase = Phase.Running)
    (hstep : game_loop s rng = some (s1, rng1)) :
    s1.phase = Phase.Running ∧ run_ticks s1 rng1 n = some (s', rng') := by
  rw [run_ticks, hstep] at h
  refine ⟨?_, h⟩
  by_cases h1 : s1.phase = Phase.Running
  · exact h1
  · obtain ⟨rfl, rfl⟩ := run_ticks_not_running n s1 rng1 s' rng' h1 h
    exact absurd hrun h1

theorem Direction.ne_opposite (d : Direction) : d ≠ d.opposite := by
  cases d <;> simp [Direction.opposite]

theorem check_collision_false (snake obstacles : List Pos) (head : Pos)
    (h : check_collision snake obstacles head = false) :
    wall_hit head = false ∧ head ∉ snake ∧ head ∉ obstacles := by
  unfold check_collision at h
  split at h
  · cases h
  · split at h
    · cases h
    · split at h
      · cases h
      · simp_all [Bool.not_eq_true]

theorem game_loop_collision_eq (s : GameState) (rng : List Pos)
    (hph : s.phase = Phase.Running)
    (hcol : check_collision s.snake s.obstacles (new_head s) = true) :
    game_loop s rng
      = some ({ s with direction := s.next_direction, phase := Phase.GameOver },
              rng) := by
  rw [game_loop, if_neg (by simp [hph]), if_neg (by simp [hph])]
  dsimp only
  rw [if_pos hcol]

theorem start_game_spec (hs : Nat) (oldFood : Option Pos) (rng : List Pos)
    (s0 : GameState) (rng' : List Pos)
    (h : start_game hs oldFood rng = some (s0, rng')) :
    ∃ obstacles0 rng1 food0,
      add_obstacles_for_level initial_snake oldFood (1 * 2) [] rng
        = some (obstacles0, rng1)
      ∧ spawn_food initial_snake obstacles0 rng1 = some (food0, rng')
      ∧ s0 = { phase := Phase.Running,
               snake := initial_snake,
               direction := Direction.Right,
               next_direction := Direction.Right,
               food := some food0,
               obstacles := obstacles0,
               score := 0,
               level := 1,
               current_speed := INITIAL_SPEED,
               high_score := hs } := by
  unfold start_game at h
  cases hobs : add_obstacles_for_level initial_snake oldFood (1 * 2) [] rng with
  | none => rw [hobs] at h; cases h
  | some pr =>
    obtain ⟨obstacles0, rng1⟩ := pr
    rw [hobs] at h
    dsimp only at h
    cases hsf : spawn_food initial_snake obstacles0 rng1 with
    | none => rw [hsf] at h; cases h
    | some pr2 =>
      obtain ⟨food0, rng2⟩ := pr2
      rw [hsf] at h
      cases h
      exact ⟨obstacles0, rng1, food0, rfl, hsf, rfl⟩

/-! ### Claim theorems -/

/-- C7: a tick in `Running` phase whose computed new head collides (in
particular when it lies outside the grid bounds) transitions the phase to
`GameOver` and leaves the snake, the food and the obstacle set exactly as
they were before the tick. -/
theorem C7_collision_atomic (s : GameState) (rng : List Pos)
    (hph : s.phase = Phase.Running)
    (hcol : check_collision s.snake s.obstacles (new_head s) = true) :
    ∃ s', game_loop s rng = some (s', rng)
      ∧ s'.phase = Phase.GameOver
      ∧ s'.snake = s.snake
      ∧ s'.food = s.food
      ∧ s'.obstacles = s.obstacles
      ∧ s'.score = s.score
      ∧ s'.level = s.level
      ∧ s'.current_speed = s.current_speed := by
  exact ⟨{ s with direction := s.next_direction, phase := Phase.GameOver },
    game_loop_collision_eq s rng hph hcol, rfl, rfl, rfl, rfl, rfl, rfl, rfl⟩

def c7State : GameState :=
  { phase := Phase.Running,
    snake := [(0, 300), (20, 300), (40, 300)],
    direction := Direction.Left,
    next_direction := Direction.Left,
    food := some (100, 100),
    obstacles := [(200, 200)],
    score := 0, level := 1, current_speed := 140, high_score := 0 }

/-- Witness for C7: the spec's scenario — head at cell `(0, 15)` (pixel
`(0, 300)`) facing left; the tick computes head `(-20, 300)`, a wall hit. -/
theorem C7_witness :
    ∃ s', game_loop c7State [] = some (s', [])
      ∧ s'.phase = Phase.GameOver
      ∧ s'.snake = c7State.snake
      ∧ s'.food = c7State.food
      ∧ s'.obstacles = c7State.obstacles
      ∧ s'.score = c7State.score
      ∧ s'.level = c7State.level
      ∧ s'.current_speed = c7State.current_speed :=
  C7_collision_atomic c7State [] rfl (by decide)

/-- C9: caller misuse is a silent no-op — a tick in any phase other than
`Running` (including `Paused`) changes no session state, and the pause key
in any phase other than `Running`/`Paused` (for example `Menu`) changes
nothing. -/
theorem C9_misuse_noop (s : GameState) (rng : List Pos) :
    (s.phase ≠ Phase.Running → game_loop s rng = some (s, rng))
    ∧ (s.phase ≠ Phase.Running → s.phase ≠ Phase.Paused →
        toggle_pause s = s) := by
  constructor
  · exact game_loop_not_running s rng
  · intro h1 h2
    cases hp : s.phase <;> simp_all [toggle_pause]

def c9State : GameState :=
  { phase := Phase.Menu,
    snake := [], direction := Direction.Right, next_direction := Direction.Right,
    food := none, obstacles := [],
    score := 0, level := 1, current_speed := 140, high_score := 0 }

/-- Witness for C9: in phase `Menu`, a tick returns the state unchanged and
the pause key leaves the state (hence the phase) unchanged. -/
theorem C9_witness :
    game_loop c9State [] = some (c9State, []) ∧ toggle_pause c9State = c9State :=
  ⟨(C9_misuse_noop c9State []).1 (by decide),
   (C9_misuse_noop c9State []).2 (by decide) (by decide)⟩

def c1State : GameState :=
  { phase := Phase.Running,
    snake := [(400, 300), (400, 320), (380, 320), (380, 300)],
    direction := Direction.Up,
    next_direction := Direction.Left,
    food := some (100, 100),
    obstacles := [],
    score := 0, level := 1, current_speed := 140, high_score := 0 }

/-- C1 counterexample: a running state whose tick moves the head onto the
current tail cell without eating food.  The claim says the move is accepted;
the code's `check_collision` tests the new head against the whole snake,
tail included, so the phase becomes `GameOver`. -/
theorem C1_counterexample :
    new_head c1State = (380, 300)
    ∧ c1State.snake.getLast? = some (380, 300)
    ∧ c1State.food ≠ some (380, 300)
    ∧ (game_loop c1State []).map (fun r => r.1.phase) = some Phase.GameOver := by
  decide

/-- C1 (amended): the tail cell is NOT excluded from the self-collision
check — whenever the computed new head is any cell of the current snake
(the about-to-vacate tail included), the tick in `Running` phase transitions
to `GameOver` and the board state is left unchanged. -/
theorem C1_tail_not_excluded (s : GameState) (rng : List Pos)
    (hph : s.phase = Phase.Running)
    (hmem : new_head s ∈ s.snake) :
    game_loop s rng
      = some ({ s with direction := s.next_direction, phase := Phase.GameOver },
              rng) := by
  refine game_loop_collision_eq s rng hph ?_
  by_cases hw : wall_hit (new_head s) = true
  · rw [check_collision, if_pos hw]
  · rw [check_collision, if_neg hw, if_pos hmem]

/-- Witness for C1 (amended), at the counterexample state: the tail-cell
move ends the game. -/
theorem C1_witness :
    game_loop c1State []
      = some ({ c1State with
          direction := Direction.Left,
          phase := Phase.GameOver }, []) :=
  C1_tail_not_excluded c1State [] rfl (by decide)

/-- C8 counterexample: at a head cell that is simultaneously a snake cell
and an obstacle cell, the source's check order (wall, self, obstacles)
reports a self hit first, while the claimed order (wall, obstacles, self)
would report an obstacle hit first. -/
theorem C8_counterexample :
    collision_reason [(100, 100)] [(100, 100)] (100, 100)
      = some CollisionKind.selfHit
    ∧ collision_reason_claim [(100, 100)] [(100, 100)] (100, 100)
      = some CollisionKind.obstacleHit
    ∧ collision_reason [(100, 100)] [(100, 100)] (100, 100)
      ≠ collision_reason_claim [(100, 100)] [(100, 100)] (100, 100) := by
  decide

/-- C8 (amended): `check_collision` tests the new head in the order wall,
then self (the whole current snake), then obstacles; its Boolean result is
exactly “some test fires”, and the first test that fires is the wall test
when the head is out of bounds, else the self test when the head is a snake
cell, else the obstacle test when it is an obstacle cell. -/
theorem C8_check_order (snake obstacles : List Pos) (head : Pos) :
    check_collision snake obstacles head
      = (collision_reason snake obstacles head).isSome
    ∧ (wall_hit head = true →
        collision_reason snake obstacles head = some CollisionKind.wall)
    ∧ (wall_hit head = false → head ∈ snake →
        collision_reason snake obstacles head = some CollisionKind.selfHit)
    ∧ (wall_hit head = false → head ∉ snake → head ∈ obstacles →
        collision_reason snake obstacles head = some CollisionKind.obstacleHit)
    ∧ (wall_hit head = false → head ∉ snake → head ∉ obstacles →
        collision_reason snake obstacles head = none) := by
  unfold check_collision collision_reason
  by_cases hw : wall_hit head = true
  · simp [hw]
  · rw [Bool.not_eq_true] at hw
    by_cases hs : head ∈ snake
    · simp [hw, hs]
    · by_cases ho : head ∈ obstacles <;> simp [hw, hs, ho]

/-- Witness for C8 (amended): a wall hit at `(-20, 300)` and a self hit at a
snake cell, with the corresponding Boolean results. -/
theorem C8_witness :
    check_collision [(40, 40)] [] (-20, 300)
      = (collision_reason [(40, 40)] [] (-20, 300)).isSome
    ∧ collision_reason [(40, 40)] [] (-20, 300) = some CollisionKind.wall
    ∧ collision_reason [(40, 40)] [(60, 60)] (40, 40)
      = some CollisionKind.selfHit :=
  ⟨(C8_check_order [(40, 40)] [] (-20, 300)).1,
   (C8_check_order [(40, 40)] [] (-20, 300)).2.1 (by decide),
   (C8_check_order [(40, 40)] [(60, 60)] (40, 40)).2.2.1 (by decide) (by decide)⟩

/-- C6: a reversing intent or an intent outside `Running` phase leaves the
state unchanged; an accepted intent changes only the buffered
`next_direction`; the committed direction is only changed by a tick, and
the direction committed by the next tick is never the exact reverse of the
previously committed direction (given the buffered direction respects that,
which every reachable state does — `set_intent` preserves it). -/
theorem C6_set_intent (s : GameState) (d : Direction) (rng : List Pos) :
    (s.phase ≠ Phase.Running → set_intent s d = s)
    ∧ (d = s.direction.opposite → set_intent s d = s)
    ∧ (set_intent s d = s ∨ set_intent s d = { s with next_direction := d })
    ∧ (set_intent s d).direction = s.direction
    ∧ (s.next_direction ≠ s.direction.opposite →
        (set_intent s d).next_direction
          ≠ ((set_intent s d).direction).opposite)
    ∧ (s.next_direction ≠ s.direction.opposite →
        ∀ s' rng', game_loop s rng = some (s', rng') →
          s'.direction ≠ s.direction.opposite) := by
  refine ⟨?_, ?_, ?_, ?_, ?_, ?_⟩
  · intro h
    rw [set_intent.eq_def, if_pos h]
  · intro h
    by_cases hph : s.phase ≠ Phase.Running
    · rw [set_intent.eq_def, if_pos hph]
    · rw [set_intent.eq_def, if_neg hph]
      cases d <;> cases hdir : s.direction <;>
        simp_all [Direction.opposite]
  · by_cases hph : s.phase ≠ Phase.Running
    · left; rw [set_intent.eq_def, if_pos hph]
    · rw [set_intent.eq_def, if_neg hph]
      cases d <;> cases hdir : s.direction <;> simp_all
  · by_cases hph : s.phase ≠ Phase.Running
    · rw [set_intent.eq_def, if_pos hph]
    · rw [set_intent.eq_def, if_neg hph]
      cases d <;> cases hdir : s.direction <;> simp_all
  · intro hinv
    by_cases hph : s.phase ≠ Phase.Running
    · rw [set_intent.eq_def, if_pos hph]; exact hinv
    · rw [set_intent.eq_def, if_neg hph]
      cases d <;> revert hinv <;> cases hdir : s.direction <;>
        simp_all [Direction.opposite]
  · intro hinv s' rng' h
    rcases game_loop_cases s rng s' rng' h with
      ⟨_, rfl, _⟩ | ⟨_, _, rfl, _⟩ | ⟨_, _, _, rfl, _⟩
        | ⟨_, _, _, _, _, _, _, _, rfl⟩
    · exact fun hc => Direction.ne_opposite _ hc
    · exact hinv
    · exact hinv
    · exact hinv

def c6State : GameState :=
  { phase := Phase.Running,
    snake := [(400, 300), (380, 300), (360, 300)],
    direction := Direction.Right,
    next_direction := Direction.Right,
    food := some (100, 100),
    obstacles := [],
    score := 0, level := 1, current_speed := 140, high_score := 0 }

/-- Witness for C6: with committed direction `Right`, the intent `Left` is
silently dropped, the intent `Up` changes only the buffer, and the next
tick commits a direction other than `Left`. -/
theorem C6_witness :
    set_intent c6State Direction.Left = c6State
    ∧ (set_intent c6State Direction.Up = c6State
        ∨ set_intent c6State Direction.Up
            = { c6State with next_direction := Direction.Up })
    ∧ (∀ s' rng', game_loop c6State [] = some (s', rng') →
        s'.direction ≠ Direction.Left) :=
  ⟨(C6_set_intent c6State Direction.Left []).2.1 (by decide),
   (C6_set_intent c6State Direction.Up []).2.2.1,
   (C6_set_intent c6State Direction.Up []).2.2.2.2.2 (by decide)⟩

/-- C5: the tick interval starts at `INITIAL_SPEED`, never increases,
stays within `[MIN_SPEED, INITIAL_SPEED]`, and on a food-eating tick drops
by exactly `SPEED_INCREMENT` unless that would go below `MIN_SPEED`, in
which case it is clamped at `MIN_SPEED`. -/
theorem C5_speed (s : GameState) (rng : List Pos) (s' : GameState)
    (rng' : List Pos)
    (hlo : MIN_SPEED ≤ s.current_speed)
    (hhi : s.current_speed ≤ INITIAL_SPEED)
    (h : game_loop s rng = some (s', rng')) :
    s'.current_speed ≤ s.current_speed
    ∧ MIN_SPEED ≤ s'.current_speed
    ∧ s'.current_speed ≤ INITIAL_SPEED
    ∧ (s.phase = Phase.Running →
        check_collision s.snake s.obstacles (new_head s) = false →
        some (new_head s) = s.food →
        s'.current_speed
          = if MIN_SPEED ≤ s.current_speed - SPEED_INCREMENT
            then s.current_speed - SPEED_INCREMENT else MIN_SPEED)
    ∧ (∀ hs oldFood rng0 s0 rng0',
        start_game hs oldFood rng0 = some (s0, rng0') →
        s0.current_speed = INITIAL_SPEED) := by
  have hstart : ∀ hs oldFood rng0 s0 rng0',
      start_game hs oldFood rng0 = some (s0, rng0') →
      s0.current_speed = INITIAL_SPEED := by
    intro hs oldFood rng0 s0 rng0' h0
    obtain ⟨_, _, _, _, _, rfl⟩ := start_game_spec hs oldFood rng0 s0 rng0' h0
    rfl
  rcases game_loop_cases s rng s' rng' h with
    ⟨_, rfl, _⟩ | ⟨_, _, rfl, _⟩ | ⟨hph, hcol, hfood, rfl, _⟩
      | ⟨hph, hcol, hfood, obstacles1, rng1, food1, hobs, hsf, rfl⟩
  · exact ⟨Nat.le_refl _, hlo, hhi, fun _ _ _ => by simp_all, hstart⟩
  · exact ⟨Nat.le_refl _, hlo, hhi, fun _ hc _ => by simp_all, hstart⟩
  · refine ⟨Nat.le_refl _, hlo, hhi, fun _ _ hf => absurd hf hfood, hstart⟩
  · refine ⟨?_, ?_, ?_, fun _ _ _ => ?_, hstart⟩
    · show max MIN_SPEED (s.current_speed - SPEED_INCREMENT) ≤ s.current_speed
      simp only [MIN_SPEED, SPEED_INCREMENT] at *
      omega
    · show MIN_SPEED ≤ max MIN_SPEED (s.current_speed - SPEED_INCREMENT)
      exact Nat.le_max_left _ _
    · show max MIN_SPEED (s.current_speed - SPEED_INCREMENT) ≤ INITIAL_SPEED
      simp only [MIN_SPEED, SPEED_INCREMENT, INITIAL_SPEED] at *
      omega
    · show max MIN_SPEED (s.current_speed - SPEED_INCREMENT)
        = if MIN_SPEED ≤ s.current_speed - SPEED_INCREMENT
          then s.current_speed - SPEED_INCREMENT else MIN_SPEED
      rw [Nat.max_def]

def foodState : GameState :=
  { phase := Phase.Running,
    snake := [(400, 300), (380, 300), (360, 300)],
    direction := Direction.Right,
    next_direction := Direction.Right,
    food := some (420, 300),
    obstacles := [(0, 0), (20, 0)],
    score := 0, level := 1, current_speed := 140, high_score := 0 }

def foodRng : List Pos := [(400, 300), (500, 500)]

def foodResult : GameState :=
  { phase := Phase.Running,
    snake := [(420, 300), (400, 300), (380, 300), (360, 300)],
    direction := Direction.Right,
    next_direction := Direction.Right,
    food := some (500, 500),
    obstacles := [(0, 0), (20, 0)],
    score := 1, level := 1, current_speed := 137, high_score := 1 }

/-- Witness for C5: the spec's food-eating scenario drops the interval from
140 to 137, inside the bounds. -/
theorem C5_witness :
    foodResult.current_speed ≤ foodState.current_speed
    ∧ MIN_SPEED ≤ foodResult.current_speed
    ∧ foodResult.current_speed ≤ INITIAL_SPEED
    ∧ foodResult.current_speed
        = if MIN_SPEED ≤ foodState.current_speed - SPEED_INCREMENT
          then foodState.current_speed - SPEED_INCREMENT else MIN_SPEED :=
  ⟨(C5_speed foodState foodRng foodResult [] (by decide) (by decide)
      (by decide)).1,
   (C5_speed foodState foodRng foodResult [] (by decide) (by decide)
      (by decide)).2.1,
   (C5_speed foodState foodRng foodResult [] (by decide) (by decide)
      (by decide)).2.2.1,
   (C5_speed foodState foodRng foodResult [] (by decide) (by decide)
      (by decide)).2.2.2.1 rfl (by decide) (by decide)⟩

/-- C4: the level never decreases under any operation; whenever the
level/score coupling `level = 1 + score / LEVEL_SCORE_STEP` and the
obstacle-count coupling `|obstacles| = level * 2` hold before a tick, the
former holds again after it, a tick that raises the level leaves exactly
`level * 2` obstacles, and the obstacle list never loses an element. -/
theorem C4_level (s : GameState) (d : Direction) (rng : List Pos)
    (s' : GameState) (rng' : List Pos)
    (hinv : s.level = 1 + s.score / LEVEL_SCORE_STEP)
    (hobs : s.obstacles.length = s.level * 2)
    (h : game_loop s rng = some (s', rng')) :
    s.level ≤ s'.level
    ∧ s'.level = 1 + s'.score / LEVEL_SCORE_STEP
    ∧ (s.level < s'.level → s'.obstacles.length = s'.level * 2)
    ∧ s.obstacles ⊆ s'.obstacles
    ∧ (set_intent s d).level = s.level
    ∧ (toggle_pause s).level = s.level := by
  have hsi : (set_intent s d).level = s.level := by
    rw [set_intent.eq_def]
    split
    · rfl
    · cases d <;> dsimp only <;> split <;> rfl
  have htp : (toggle_pause s).level = s.level := by
    cases hp : s.phase <;> simp [toggle_pause, hp]
  rcases game_loop_cases s rng s' rng' h with
    ⟨_, rfl, _⟩ | ⟨_, _, rfl, _⟩ | ⟨_, _, _, rfl, _⟩
      | ⟨hph, hcol, hfood, obstacles1, rng1, food1, hobsEq, hsf, rfl⟩
  · exact ⟨Nat.le_refl _, hinv, fun hlt => absurd hlt (Nat.lt_irrefl _),
      fun x hx => hx, hsi, htp⟩
  · exact ⟨Nat.le_refl _, hinv, fun hlt => absurd hlt (Nat.lt_irrefl _),
      fun x hx => hx, hsi, htp⟩
  · exact ⟨Nat.le_refl _, hinv, fun hlt => absurd hlt (Nat.lt_irrefl _),
      fun x hx => hx, hsi, htp⟩
  · by_cases hlev : s.level < 1 + (s.score + 1) / LEVEL_SCORE_STEP
    · rw [if_pos hlev] at hobsEq
      have hlen : obstacles1.length
          = (1 + (s.score + 1) / LEVEL_SCORE_STEP) * 2 :=
        add_obstacles_length _ _ _ rng s.obstacles obstacles1 rng1
          (by rw [hobs]; exact Nat.mul_le_mul_right 2 (Nat.le_of_lt hlev))
          hobsEq
      have hsub := add_obstacles_subset _ _ _ rng s.obstacles obstacles1
        rng1 hobsEq
      refine ⟨?_, ?_, fun _ => ?_, hsub, hsi, htp⟩
      · dsimp only
        rw [if_pos hlev]
        exact Nat.le_of_lt hlev
      · dsimp only
        rw [if_pos hlev]
      · dsimp only
        rw [if_pos hlev]
        exact hlen
    · rw [if_neg hlev] at hobsEq
      obtain ⟨rfl, rfl⟩ : s.obstacles = obstacles1 ∧ rng = rng1 := by
        cases hobsEq; exact ⟨rfl, rfl⟩
      refine ⟨?_, ?_, fun hlt => ?_, fun x hx => hx, hsi, htp⟩
      · dsimp only
        rw [if_neg hlev]
      · dsimp only
        rw [if_neg hlev]
        simp only [LEVEL_SCORE_STEP] at *
        omega
      · dsimp only at hlt
        rw [if_neg hlev] at hlt
        exact absurd hlt (Nat.lt_irrefl _)

/-- Witness for C4: the food tick of the spec's scenario keeps the level at
1 (score 1 is below `LEVEL_SCORE_STEP`) and keeps both obstacles. -/
theorem C4_witness :
    foodState.level ≤ foodResult.level
    ∧ foodResult.level = 1 + foodResult.score / LEVEL_SCORE_STEP
    ∧ foodState.obstacles ⊆ foodResult.obstacles
    ∧ (set_intent foodState Direction.Up).level = foodState.level
    ∧ (toggle_pause foodState).level = foodState.level :=
  ⟨(C4_level foodState Direction.Up foodRng foodResult [] (by decide)
      (by decide) (by decide)).1,
   (C4_level foodState Direction.Up foodRng foodResult [] (by decide)
      (by decide) (by decide)).2.1,
   (C4_level foodState Direction.Up foodRng foodResult [] (by decide)
      (by decide) (by decide)).2.2.2.1,
   (C4_level foodState Direction.Up foodRng foodResult [] (by decide)
      (by decide) (by decide)).2.2.2.2.1,
   (C4_level foodState Direction.Up foodRng foodResult [] (by decide)
      (by decide) (by decide)).2.2.2.2.2⟩

/-- C2: an accepted tick in `Running` phase whose new head equals the food
raises the score by exactly 1, grows the snake by exactly one segment (new
head prepended, tail retained), and respawns the food at a cell that is in
neither the post-move snake nor the obstacle list. -/
theorem C2_food_tick (s : GameState) (rng : List Pos) (s' : GameState)
    (rng' : List Pos)
    (hph : s.phase = Phase.Running)
    (hcol : check_collision s.snake s.obstacles (new_head s) = false)
    (hfood : some (new_head s) = s.food)
    (h : game_loop s rng = some (s', rng')) :
    s'.score = s.score + 1
    ∧ s'.snake = new_head s :: s.snake
    ∧ s'.snake.length = s.snake.length + 1
    ∧ ∃ f, s'.food = some f ∧ f ∉ s'.snake ∧ f ∉ s'.obstacles := by
  rcases game_loop_cases s rng s' rng' h with
    ⟨hns, _, _⟩ | ⟨_, hc, _, _⟩ | ⟨_, _, hnf, _, _⟩
      | ⟨_, _, _, obstacles1, rng1, food1, hobsEq, hsf, rfl⟩
  · exact absurd hph hns
  · rw [hcol] at hc; cases hc
  · exact absurd hfood hnf
  · obtain ⟨hf1, hf2⟩ := spawn_food_spec (new_head s :: s.snake) obstacles1
      rng1 food1 rng' hsf
    exact ⟨rfl, rfl, rfl, food1, rfl, hf1, hf2⟩

/-- Witness for C2: the spec's scenario — eating the food at `(420, 300)`
makes the score 1, the snake 4 segments with the tail retained, and the
food respawns at the free cell `(500, 500)`. -/
theorem C2_witness :
    foodResult.score = foodState.score + 1
    ∧ foodResult.snake = new_head foodState :: foodState.snake
    ∧ foodResult.snake.length = foodState.snake.length + 1
    ∧ ∃ f, foodResult.food = some f ∧ f ∉ foodResult.snake
        ∧ f ∉ foodResult.obstacles :=
  C2_food_tick foodState foodRng foodResult [] rfl (by decide) (by decide)
    (by decide)

/-- C3: along any run of accepted ticks that starts and stays in `Running`
phase (no tick became `GameOver`) and eats no food (the score at the end
equals the score at the start — the score rises by exactly 1 at each
food-eating tick and never otherwise), the snake keeps its length and never
has two segments on the same cell. -/
theorem C3_no_food_run (n : Nat) :
    ∀ s rng s' rng',
      run_ticks s rng n = some (s', rng') →
      s.phase = Phase.Running →
      s'.phase = Phase.Running →
      s'.score = s.score →
      s.snake.Nodup →
      s'.snake.length = s.snake.length ∧ s'.snake.Nodup := by
  induction n with
  | zero =>
    intro s rng s' rng' h _ _ _ hnd
    rw [run_ticks] at h
    cases h
    exact ⟨rfl, hnd⟩
  | succ n ih =>
    intro s rng s' rng' h hph hph' hsc hnd
    have hstep0 : ∃ s1 rng1, game_loop s rng = some (s1, rng1) := by
      rw [run_ticks] at h
      cases hg : game_loop s rng with
      | none => rw [hg] at h; cases h
      | some pr =>
        obtain ⟨s1x, rng1x⟩ := pr
        exact ⟨s1x, rng1x, rfl⟩

    obtain ⟨s1, rng1, hstep⟩ := hstep0
    obtain ⟨h1run, hrest⟩ :=
      run_ticks_running n s rng s' rng' s1 rng1 h hph' hstep
    have hs1le : s1.score ≤ s'.score :=
      run_ticks_score_le n s1 rng1 s' rng' hrest
    rcases game_loop_cases s rng s1 rng1 hstep with
      ⟨hns, _, _⟩ | ⟨_, _, rfl, _⟩ | ⟨_, hcol, _, rfl, _⟩
        | ⟨_, _, _, obstacles1, rng1x, food1, _, _, rfl⟩
    · exact absurd hph hns
    · cases h1run
    · obtain ⟨_, hnotmem, _⟩ :=
        check_collision_false s.snake s.obstacles (new_head s) hcol
      have hnd1 : ((new_head s :: s.snake).dropLast).Nodup :=
        List.Nodup.sublist (List.dropLast_sublist _)
          (List.nodup_cons.mpr ⟨hnotmem, hnd⟩)
      have hlen1 : ((new_head s :: s.snake).dropLast).length
          = s.snake.length := by
        simp [List.length_dropLast]
      obtain ⟨hlen, hnd'⟩ := ih _ rng1 s' rng' hrest h1run hph'
        (by simpa using hsc) hnd1
      exact ⟨by rw [hlen, hlen1], hnd'⟩
    · exfalso
      simp only at hs1le
      omega

def c3Result : GameState :=
  { c6State with snake := [(440, 300), (420, 300), (400, 300)] }

/-- Witness for C3: two accepted non-food ticks keep the snake at three
pairwise-distinct segments. -/
theorem C3_witness :
    c3Result.snake.length = c6State.snake.length ∧ c3Result.snake.Nodup :=
  C3_no_food_run 2 c6State [] c3Result [] (by decide) rfl rfl rfl (by decide)

/-- C10: after any successful `start_game` (first start or restart), the
session state is exactly: score 0, level 1, speed `INITIAL_SPEED`, phase
`Running` (not paused), the snake the three distinct horizontally contiguous
cells headed at the grid's centre cell, both committed and buffered
direction `Right`, exactly two pairwise-distinct obstacles outside the
snake, and a food cell outside both the snake and the obstacles. -/
theorem C10_start_state (hs : Nat) (oldFood : Option Pos) (rng : List Pos)
    (s0 : GameState) (rng' : List Pos)
    (h : start_game hs oldFood rng = some (s0, rng')) :
    s0.score = 0
    ∧ s0.level = 1
    ∧ s0.current_speed = INITIAL_SPEED
    ∧ s0.phase = Phase.Running
    ∧ s0.snake = [(WIDTH / 2, HEIGHT / 2),
                  (WIDTH / 2 - CELL_SIZE, HEIGHT / 2),
                  (WIDTH / 2 - 2 * CELL_SIZE, HEIGHT / 2)]
    ∧ s0.snake.length = 3
    ∧ s0.snake.Nodup
    ∧ s0.snake.headD (0, 0) = (WIDTH / 2, HEIGHT / 2)
    ∧ s0.direction = Direction.Right
    ∧ s0.next_direction = Direction.Right
    ∧ s0.obstacles.length = 2
    ∧ s0.obstacles.Nodup
    ∧ (∀ p ∈ s0.obstacles, p ∉ s0.snake)
    ∧ (∃ f, s0.food = some f ∧ f ∉ s0.snake ∧ f ∉ s0.obstacles) := by
  obtain ⟨obstacles0, rng1, food0, hobs, hsf, rfl⟩ :=
    start_game_spec hs oldFood rng s0 rng' h
  have hlen : obstacles0.length = 1 * 2 :=
    add_obstacles_length initial_snake oldFood (1 * 2) rng [] obstacles0
      rng1 (by simp) hobs
  have hnd : obstacles0.Nodup :=
    add_obstacles_nodup initial_snake oldFood (1 * 2) rng [] obstacles0
      rng1 List.nodup_nil hobs
  have hmem : ∀ p ∈ obstacles0, p ∉ initial_snake := by
    intro p hp
    rcases add_obstacles_mem initial_snake oldFood (1 * 2) rng [] obstacles0
      rng1 hobs p hp with hin | ⟨hnot, _⟩
    · cases hin
    · exact hnot
  obtain ⟨hf1, hf2⟩ := spawn_food_spec initial_snake obstacles0 rng1 food0
    rng' hsf
  exact ⟨rfl, rfl, rfl, rfl, rfl, rfl, (by decide : initial_snake.Nodup),
    rfl, rfl, rfl, by simpa using hlen, hnd, hmem, food0, rfl, hf1, hf2⟩

def c10Rng : List Pos := [(400, 300), (0, 0), (0, 0), (20, 0), (100, 100)]

def c10Result : GameState :=
  { phase := Phase.Running,
    snake := [(400, 300), (380, 300), (360, 300)],
    direction := Direction.Right,
    next_direction := Direction.Right,
    food := some (100, 100),
    obstacles := [(0, 0), (20, 0)],
    score := 0, level := 1, current_speed := 140, high_score := 0 }

/-- Witness for C10: a concrete sample stream whose first cell is rejected
(it is a snake cell) yields the start state with obstacles `(0,0)`, `(20,0)`
and food `(100,100)`. -/
theorem C10_witness :
    c10Result.score = 0
    ∧ c10Result.level = 1
    ∧ c10Result.current_speed = INITIAL_SPEED
    ∧ c10Result.phase = Phase.Running
    ∧ c10Result.obstacles.length = 2
    ∧ (∀ p ∈ c10Result.obstacles, p ∉ c10Result.snake)
    ∧ ∃ f, c10Result.food = some f ∧ f ∉ c10Result.snake
        ∧ f ∉ c10Result.obstacles := by
  have h := C10_start_state 0 none c10Rng c10Result [] (by decide)
  exact ⟨h.1, h.2.1, h.2.2.1, h.2.2.2.1, h.2.2.2.2.2.2.2.2.2.2.1,
    h.2.2.2.2.2.2.2.2.2.2.2.2.1, h.2.2.2.2.2.2.2.2.2.2.2.2.2⟩
